import Mathlib

/-
  Verification development for the core of the jay Wayland compositor
  (repository mrshiposha/jay).  The definitions below are shallow
  embeddings of the Rust source:

    - src/ifs/zwp_linux_dmabuf_v1.rs   (dmabuf global: bind_, send_feedback)
    - src/ifs/org_kde_kwin_server_decoration/mod.rs (request_mode)
    - src/state.rs                     (map_tiled, show_workspace)
    - src/tasks/connector.rs           (connector lifecycle handler)

  Machine integers are modelled as Nat with explicit `% 2 ^ w` where the
  source uses a fixed-width counter (the u16 `size` row counter of
  send_feedback); byte output is modelled as lists of byte values.
-/

namespace Jay

/-! ## zwp_linux_dmabuf_v1: render-context format table

Mirrors the data consumed by `ZwpLinuxDmabufV1Global::bind_` and
`ZwpLinuxDmabufV1::send_feedback` in src/ifs/zwp_linux_dmabuf_v1.rs:
the render context exposes a map of formats, each with a drm fourcc
(u32), an `implicit_external_only` flag and a map of modifiers (u64)
each with an `external_only` flag; the context also reports whether
external textures are supported and the device dev_t. -/

structure ModifierEntry where
  modifier : Nat
  externalOnly : Bool
  deriving DecidableEq, Repr

structure FormatEntry where
  drm : Nat
  implicitExternalOnly : Bool
  modifiers : List ModifierEntry
  deriving DecidableEq, Repr

structure RenderCtx where
  dev : Nat
  supportsExternalTexture : Bool
  formats : List FormatEntry
  deriving DecidableEq, Repr

/-- Errors of the dmabuf interface, following `ClientError` as used in
src/ifs/zwp_linux_dmabuf_v1.rs (`ClientError::InvalidMethod` is the
error returned by `send_feedback` when no render context is set). -/
inductive ClientError where
  | invalidMethod
  | io
  deriving DecidableEq, Repr

/-- memfd_create flag MFD_CLOEXEC (linux uapi value 0x0001). -/
def MFD_CLOEXEC : Nat := 1

/-- memfd_create flag MFD_ALLOW_SEALING (linux uapi value 0x0002). -/
def MFD_ALLOW_SEALING : Nat := 2

/-- fcntl seal F_SEAL_SHRINK (linux uapi value 0x0002). -/
def F_SEAL_SHRINK : Nat := 2

/-- fcntl seal F_SEAL_GROW (linux uapi value 0x0004). -/
def F_SEAL_GROW : Nat := 4

/-- fcntl seal F_SEAL_WRITE (linux uapi value 0x0008). -/
def F_SEAL_WRITE : Nat := 8

/-- Little-endian byte serialization of a u32 (`u32::to_le_bytes`). -/
def u32le (n : Nat) : List Nat :=
  [n % 256, n / 256 % 256, n / 65536 % 256, n / 16777216 % 256]

/-- Little-endian byte serialization of a u64 (`u64::to_le_bytes`). -/
def u64le (n : Nat) : List Nat :=
  u32le (n % 4294967296) ++ u32le (n / 4294967296)

/-- The 16 bytes written for one format-table row in `send_feedback`:
u32 le format, four zero padding bytes, u64 le modifier. -/
def rowBytes (fmt modifier : Nat) : List Nat :=
  u32le fmt ++ [0, 0, 0, 0] ++ u64le modifier

/-- The body of the inner loop of `send_feedback` over
`format.modifiers.values()`: skip a modifier whose `external_only`
flag is set when external textures are unsupported, otherwise append
one 16-byte row and bump the u16 row counter (`size += 1`, hence
`% 65536`). -/
def feedbackRowStep (ext : Bool) (drm : Nat) (acc : List Nat × Nat) (m : ModifierEntry) :
    List Nat × Nat :=
  if m.externalOnly && !ext then acc
  else (acc.1 ++ rowBytes drm m.modifier, (acc.2 + 1) % 65536)

/-- The body of the outer loop of `send_feedback` over
`ctx.formats().values()`: skip a format whose `implicit_external_only`
flag is set when external textures are unsupported, otherwise run the
inner loop over its modifiers. -/
def feedbackFormatStep (ext : Bool) (acc : List Nat × Nat) (f : FormatEntry) :
    List Nat × Nat :=
  if f.implicitExternalOnly && !ext then acc
  else f.modifiers.foldl (feedbackRowStep ext f.drm) acc

/-- The nested loop of `send_feedback` (src/ifs/zwp_linux_dmabuf_v1.rs
lines 167-194), producing the bytes written to the memfd and the final
value of the u16 row counter `size`. -/
def feedbackLoop (ext : Bool) (formats : List FormatEntry) : List Nat × Nat :=
  formats.foldl (feedbackFormatStep ext) ([], 0)

/-- Events sent on a `zwp_linux_dmabuf_feedback_v1` object, in the
order they are passed to `client.event` in `send_feedback`. -/
inductive FeedbackEvent where
  | mainDevice (device : Nat)
  | formatTable (size : Nat)
  | trancheTargetDevice (device : Nat)
  | trancheFormats (indices : List Nat)
  | trancheFlags (flags : Nat)
  | trancheDone
  | done
  deriving DecidableEq, Repr

/-- Observable result of a successful `send_feedback`: the memfd
creation flags, the bytes written into it, the seals added to it, the
fact that the feedback object was added to the client's object table,
and the event sequence sent to the client. -/
structure FeedbackResult where
  memfdFlags : Nat
  bytes : List Nat
  sealsAdded : Nat
  feedbackCreated : Bool
  events : List FeedbackEvent
  deriving DecidableEq, Repr

/-- `ZwpLinuxDmabufV1::send_feedback` (src/ifs/zwp_linux_dmabuf_v1.rs,
lines 155-250).  With a render context: create a memfd with
`MFD_CLOEXEC | MFD_ALLOW_SEALING`, write the format-table rows, add
the seals `F_SEAL_GROW | F_SEAL_SHRINK | F_SEAL_WRITE`, create the
feedback object, and send main_device, format_table (size = rows *
16), tranche_target_device, tranche_formats (indices 0..rows),
tranche_flags 0, tranche_done, done.  Without a render context: fail
with `ClientError::InvalidMethod` having done nothing. -/
def sendFeedback (ctx : Option RenderCtx) : Except ClientError FeedbackResult :=
  match ctx with
  | none => .error .invalidMethod
  | some ctx =>
    let r := feedbackLoop ctx.supportsExternalTexture ctx.formats
    .ok
      { memfdFlags := MFD_CLOEXEC ||| MFD_ALLOW_SEALING
        bytes := r.1
        sealsAdded := F_SEAL_GROW ||| F_SEAL_SHRINK ||| F_SEAL_WRITE
        feedbackCreated := true
        events :=
          [.mainDevice ctx.dev,
           .formatTable (r.2 * 16),
           .trancheTargetDevice ctx.dev,
           .trancheFormats (List.range r.2),
           .trancheFlags 0,
           .trancheDone,
           .done] }

/-- The (format, modifier) pairs the table should contain, phrased
from the spec side: every advertised pair except those whose
external-only flag (on the format or on the modifier) is set while the
renderer does not support external textures. -/
def advertisedRows (ctx : RenderCtx) : List (Nat × Nat) :=
  ctx.formats.flatMap fun f =>
    f.modifiers.filterMap fun m =>
      if (f.implicitExternalOnly || m.externalOnly) && !ctx.supportsExternalTexture
      then none
      else some (f.drm, m.modifier)

/-- The (format, modifier) pairs the inner loop of `send_feedback`
keeps for one format. -/
def rowsOfFormat (ext : Bool) (drm : Nat) (mods : List ModifierEntry) : List (Nat × Nat) :=
  mods.filterMap fun m =>
    if m.externalOnly && !ext then none else some (drm, m.modifier)

/-- The (format, modifier) pairs the full loop of `send_feedback`
keeps, in order. -/
def tableRows (ext : Bool) (formats : List FormatEntry) : List (Nat × Nat) :=
  formats.flatMap fun f =>
    if f.implicitExternalOnly && !ext then []
    else rowsOfFormat ext f.drm f.modifiers

/-! ## zwp_linux_dmabuf_v1: bind-time advertisement -/

/-- `MODIFIERS_SINCE_VERSION` in src/ifs/zwp_linux_dmabuf_v1.rs. -/
def MODIFIERS_SINCE_VERSION : Nat := 3

/-- `FEEDBACK_SINCE_VERSION` in src/ifs/zwp_linux_dmabuf_v1.rs. -/
def FEEDBACK_SINCE_VERSION : Nat := 4

/-- Events sent on the `zwp_linux_dmabuf_v1` object at bind time:
`format` carries the fourcc, `modifier` carries the fourcc and the
modifier split into high and low u32 halves as in `send_modifier`. -/
inductive BindEvent where
  | format (format : Nat)
  | modifier (format hi lo : Nat)
  deriving DecidableEq, Repr

/-- `ZwpLinuxDmabufV1Global::bind_` (src/ifs/zwp_linux_dmabuf_v1.rs,
lines 30-68), projected onto the events it sends: nothing for
version >= FEEDBACK_SINCE_VERSION or without a render context;
otherwise a `format` event per non-skipped format, followed (only for
version >= MODIFIERS_SINCE_VERSION) by a `modifier` event per
non-skipped modifier of that format. -/
def bindEvents (version : Nat) (ctx : Option RenderCtx) : List BindEvent :=
  if FEEDBACK_SINCE_VERSION ≤ version then []
  else
    match ctx with
    | none => []
    | some ctx =>
      ctx.formats.flatMap fun f =>
        if f.implicitExternalOnly && !ctx.supportsExternalTexture then []
        else
          .format f.drm ::
            (if MODIFIERS_SINCE_VERSION ≤ version then
              f.modifiers.filterMap fun m =>
                if m.externalOnly && !ctx.supportsExternalTexture then none
                else some (.modifier f.drm (m.modifier / 4294967296) (m.modifier % 4294967296))
            else [])

/-- The bind-time advertisement property claimed for versions 1-3:
every supported format gets a `format` event and every supported
modifier of a supported format gets a `modifier` event. -/
def bindClaimV1toV3 (version : Nat) (ctx : RenderCtx) : Prop :=
  1 ≤ version → version ≤ 3 →
    (∀ f ∈ ctx.formats, ¬(f.implicitExternalOnly && !ctx.supportsExternalTexture) = true →
      BindEvent.format f.drm ∈ bindEvents version (some ctx)) ∧
    (∀ f ∈ ctx.formats, ¬(f.implicitExternalOnly && !ctx.supportsExternalTexture) = true →
      ∀ m ∈ f.modifiers, ¬(m.externalOnly && !ctx.supportsExternalTexture) = true →
        BindEvent.modifier f.drm (m.modifier / 4294967296) (m.modifier % 4294967296)
          ∈ bindEvents version (some ctx))

/-! ## org_kde_kwin_server_decoration

Mirrors src/ifs/org_kde_kwin_server_decoration/mod.rs.  The object
state is the `requested: Cell<bool>` flag, initialized to false by
`OrgKdeKwinServerDecoration::new`. -/

/-- Decoration mode constant NONE. -/
def DECO_NONE : Nat := 0

/-- Decoration mode constant CLIENT. -/
def DECO_CLIENT : Nat := 1

/-- Decoration mode constant SERVER. -/
def DECO_SERVER : Nat := 2

/-- Error of `request_mode`: `RequestModeError::InvalidMode(mode)`. -/
inductive RequestModeError where
  | invalidMode (mode : Nat)
  deriving DecidableEq, Repr

/-- Per-object state of an `OrgKdeKwinServerDecoration`. -/
structure DecorationState where
  requested : Bool
  deriving DecidableEq, Repr

/-- `OrgKdeKwinServerDecoration::new`: `requested` starts false. -/
def DecorationState.new : DecorationState := { requested := false }

/-- `OrgKdeKwinServerDecoration::request_mode` (mod.rs lines 51-63):
a mode above SERVER is rejected with `InvalidMode` before anything is
sent or stored; otherwise `requested.replace(true)` picks SERVER for
the first request and the requested mode afterwards, and exactly one
`mode` event is sent.  The result is the new object state, the list of
`mode` events sent, and the error if any. -/
def requestMode (st : DecorationState) (m : Nat) :
    DecorationState × List Nat × Option RequestModeError :=
  if DECO_SERVER < m then (st, [], some (.invalidMode m))
  else
    let prev := st.requested
    let mode := if prev then m else DECO_SERVER
    ({ requested := true }, [mode], none)

/-- Runs a sequence of `request_mode` calls from a given state,
collecting the `mode` events sent for each call (error cases
contribute their empty event list). -/
def runRequestModes (st : DecorationState) : List Nat → List (List Nat)
  | [] => []
  | m :: ms =>
    let r := requestMode st m
    r.2.1 :: runRequestModes r.1 ms

/-! ## Connector lifecycle (src/tasks/connector.rs)

`ConnectorHandler::handle` loops on connector events while
disconnected, treating everything except `Removed` and
`Connected(info)` as `unreachable!()`; `handle_connected` loops on
events while connected, treating everything except `Disconnected` and
`ModeChanged(mode)` as `unreachable!()`. -/

/-- A video mode (width/height suffice for this development). -/
structure Mode where
  width : Int
  height : Int
  deriving DecidableEq, Repr

/-- The payload of `ConnectorEvent::Connected`. -/
structure MonitorInfo where
  initialMode : Mode
  widthMm : Int
  heightMm : Int
  deriving DecidableEq, Repr

/-- Backend connector events, as matched in src/tasks/connector.rs. -/
inductive ConnectorEvent where
  | removed
  | connected (info : MonitorInfo)
  | disconnected
  | modeChanged (mode : Mode)
  deriving DecidableEq, Repr

/-- The two looping states of the connector handler: the outer loop of
`handle` (disconnected) and the inner loop of `handle_connected`
(connected). -/
inductive ConnState where
  | disconnected
  | connected
  deriving DecidableEq, Repr

/-- Outcome of dispatching one connector event: move to a loop state,
leave the loops (`Removed` ends `handle`; the terminal state), or hit
an `unreachable!()` (a panic aborting the compositor). -/
inductive ConnStep where
  | next (s : ConnState)
  | exitRemoved
  | panic
  deriving DecidableEq, Repr

/-- The event dispatch of the connector handler: the `match event`
of `handle` (disconnected state, lines 51-55) and of
`handle_connected` (connected state, lines 125-131). -/
def connectorStep : ConnState → ConnectorEvent → ConnStep
  | .disconnected, .removed => .exitRemoved
  | .disconnected, .connected _ => .next .connected
  | .disconnected, _ => .panic
  | .connected, .disconnected => .next .disconnected
  | .connected, .modeChanged _ => .next .connected
  | .connected, _ => .panic

/-- The events the spec's connector state machine permits in each
state: `Connected`/`Removed` while disconnected,
`ModeChanged`/`Disconnected` while connected. -/
def permittedEvent : ConnState → ConnectorEvent → Bool
  | .disconnected, .removed => true
  | .disconnected, .connected _ => true
  | .disconnected, _ => false
  | .connected, .disconnected => true
  | .connected, .modeChanged _ => true
  | .connected, _ => false

/-- `.max().unwrap_or(0)` over a list of Int, as the iterator max in
`handle_connected`. -/
def iterMaxD0 (xs : List Int) : Int :=
  (xs.foldl (fun acc x =>
    match acc with
    | none => some x
    | some m => some (max m x)) none).getD 0

/-- The x2 coordinates visible to `handle_connected`: one per existing
output global in `state.root.outputs`. -/
structure OutputGlobalPos where
  x1 : Int
  x2 : Int
  deriving DecidableEq, Repr

/-- The horizontal position computed by
`ConnectorHandler::handle_connected` (src/tasks/connector.rs lines
70-78) for the new `wl_output` global: the maximum of the existing
outputs' `pos.x2()` with `unwrap_or(0)` for the empty case. -/
def handleConnectedX1 (existing : List OutputGlobalPos) : Int :=
  iterMaxD0 (existing.map (fun o => o.x2))

/-- The position the spec claims: the maximum of the existing x2
values and 0. -/
def specConnectedX1 (existing : List OutputGlobalPos) : Int :=
  (existing.map (fun o => o.x2)).foldl max 0

/-! ## Scene graph: tiled mapping (State::map_tiled, src/state.rs 180-214)

The container operations live in the tree module, which is not part of
the sources at hand; they are modelled from the spec (a container's
children are ordered along its split axis; mapping appends / inserts
next to the previous toplevel). -/

/-- `ContainerSplit` of the tree module. -/
inductive ContainerSplit where
  | horizontal
  | vertical
  deriving DecidableEq, Repr

/-- A container scene node: split axis and ordered child node ids. -/
structure Container where
  split : ContainerSplit
  children : List Nat
  deriving DecidableEq, Repr

/-- Modelled from the spec: `ContainerNode::new(state, parent,
workspace, child, split)` creates a container holding exactly the one
child. -/
def Container.new (child : Nat) (split : ContainerSplit) : Container :=
  { split := split, children := [child] }

/-- Modelled from the spec: `append_child` adds the node at the end of
the container's child list. -/
def Container.appendChild (c : Container) (node : Nat) : Container :=
  { c with children := c.children ++ [node] }

/-- Inserts `node` directly after the first occurrence of `prev` in a
list (after the whole list if `prev` does not occur). -/
def insertAfter (prev node : Nat) : List Nat → List Nat
  | [] => [node]
  | x :: xs => if x = prev then x :: node :: xs else x :: insertAfter prev node xs

/-- Modelled from the spec: `add_child_after(prev, node)` inserts
`node` as the immediate next sibling of `prev`. -/
def Container.addChildAfter (c : Container) (prev node : Nat) : Container :=
  { c with children := insertAfter prev node c.children }

/-- A workspace as seen by `map_tiled`: its optional root container. -/
structure Workspace where
  container : Option Container
  deriving DecidableEq, Repr

/-- An output as seen by `map_tiled`: its current workspace, if any. -/
structure OutputW where
  workspace : Option Workspace
  deriving DecidableEq, Repr

/-- Modelled from the spec: `ensure_workspace` returns the output's
current workspace, creating a fresh one (with no container) if
missing. -/
def OutputW.ensureWorkspace (o : OutputW) : Workspace :=
  o.workspace.getD { container := none }

/-- What `prev.parent()` resolves to for the last tiled keyboard
toplevel: a container node or some other node kind. -/
inductive SceneParent where
  | container (c : Container)
  | other
  deriving DecidableEq, Repr

/-- The last tiled keyboard toplevel cached by a seat, together with
its parent as seen through `parent()` / `node_into_container()`. -/
structure PrevTiled where
  id : Nat
  parent : Option SceneParent
  deriving DecidableEq, Repr

/-- A seat as consulted by `map_tiled`: the
`last_tiled_keyboard_toplevel` cache and the output returned by
`get_output`. -/
structure SeatW where
  lastTiled : Option PrevTiled
  output : OutputW
  deriving DecidableEq, Repr

/-- The compositor state `map_tiled` reads: the most recently active
seat (`seat_queue.last()`), the outputs known to the root, and the
dummy output. -/
structure MapTiledEnv where
  lastSeat : Option SeatW
  rootOutputs : List OutputW
  dummyOutput : OutputW
  deriving DecidableEq, Repr

/-- The output selection of `map_tiled` (src/state.rs 192-200): the
active seat's output if there is a seat, else the first known output,
else the dummy output. -/
def selectOutput (env : MapTiledEnv) : OutputW :=
  let output := env.lastSeat.map (fun s => s.output)
  let output :=
    match output with
    | none => env.rootOutputs.head?
    | some o => some o
  output.getD env.dummyOutput

/-- The placement step of `map_tiled` once an output is chosen
(src/state.rs 201-213): append to the workspace's root container if it
has one, otherwise create a fresh Horizontal container holding only
the node and install it as the workspace's container. -/
def placeTiled (o : OutputW) (node : Nat) : Workspace :=
  let ws := o.ensureWorkspace
  match ws.container with
  | some c => { ws with container := some (c.appendChild node) }
  | none => { ws with container := some (Container.new node .horizontal) }

/-- Result of `map_tiled`: either the node was inserted after the
previous tiled toplevel in its container, or it was placed in the
(possibly fresh) workspace of the selected output, whose updated value
is returned. -/
inductive MapTiledResult where
  | insertedAfter (c : Container)
  | placed (ws : Workspace)
  deriving DecidableEq, Repr

/-- `State::map_tiled` (src/state.rs 180-214).  If the active seat has
a last tiled keyboard toplevel whose parent is a container, insert the
node right after it; otherwise place the node in the current workspace
of the selected output. -/
def mapTiled (env : MapTiledEnv) (node : Nat) : MapTiledResult :=
  match env.lastSeat with
  | some s =>
    match s.lastTiled with
    | some prev =>
      match prev.parent with
      | some (.container c) => .insertedAfter (c.addChildAfter prev.id node)
      | some .other => .placed (placeTiled (selectOutput env) node)
      | none => .placed (placeTiled (selectOutput env) node)
    | none => .placed (placeTiled (selectOutput env) node)
  | none => .placed (placeTiled (selectOutput env) node)

/-! ## Workspace activation (State::show_workspace, src/state.rs 246-289) -/

/-- `jay_config::Direction` as used by `node_do_focus`; state.rs calls
it with `Direction::Unspecified`. -/
inductive Direction where
  | left
  | down
  | up
  | right
  | unspecified
  deriving DecidableEq, Repr

/-- A workspace as seen by `show_workspace`: its name, the id of the
output it belongs to (`ws.output.get()`), its last active child
(`last_active_child()`), and whether it is currently the shown
workspace of its output (per the spec, the `visible` bit is true iff
the workspace is its output's current workspace). -/
structure WorkspaceS where
  name : String
  outputId : Nat
  lastActiveChild : Nat
  visible : Bool
  deriving DecidableEq, Repr

/-- The seat's output as seen by `show_workspace`: its id and its
`is_dummy` flag. -/
structure OutputS where
  id : Nat
  isDummy : Bool
  deriving DecidableEq, Repr

/-- The compositor state read and written by `show_workspace`: the
global name-to-workspace map and the output of the given seat
(`seat.get_output()`). -/
structure ShowState where
  workspaces : List WorkspaceS
  seatOutput : OutputS
  deriving DecidableEq, Repr

/-- Observable actions of `show_workspace`, in program order. -/
inductive WsEffect where
  | shown (outputId : Nat) (ws : String)
  | focusChild (node : Nat) (dir : Direction)
  | warnDummyOutput
  | createdWorkspace (outputId : Nat) (ws : String)
  | updateRenderData (outputId : Nat)
  | treeChanged
  deriving DecidableEq, Repr

/-- Modelled from the spec: `OutputNode::show_workspace` makes the
workspace the output's current (visible) one and reports whether that
was a change.  It is always invoked on the workspace's own output. -/
def markShown (name : String) : List WorkspaceS → List WorkspaceS
  | [] => []
  | w :: ws =>
    if w.name == name then { w with visible := true } :: ws
    else w :: markShown name ws

/-- `State::show_workspace(seat, name)` (src/state.rs 246-289).  If a
workspace of that name exists: call `show_workspace` on *its own*
output (`ws.output.get()`), focus its last active child with
`Direction::Unspecified`, and, only when the output's shown workspace
actually changed, update the render data and raise `tree_changed`.
Otherwise: refuse with a warning when the seat's output is the dummy
output, else create a fresh workspace on the seat's output, show it,
record it in the map, update render data and raise `tree_changed`. -/
def showWorkspace (st : ShowState) (name : String) : ShowState × List WsEffect :=
  match st.workspaces.find? (fun w => w.name == name) with
  | some ws =>
    let didChange := !ws.visible
    let st1 : ShowState := { st with workspaces := markShown name st.workspaces }
    let eff := [WsEffect.shown ws.outputId name,
                WsEffect.focusChild ws.lastActiveChild .unspecified]
    if didChange then
      (st1, eff ++ [WsEffect.updateRenderData ws.outputId, WsEffect.treeChanged])
    else
      (st1, eff)
  | none =>
    let out := st.seatOutput
    if out.isDummy then
      (st, [WsEffect.warnDummyOutput])
    else
      let fresh : WorkspaceS :=
        { name := name, outputId := out.id, lastActiveChild := 0, visible := true }
      ({ st with workspaces := st.workspaces ++ [fresh] },
       [WsEffect.createdWorkspace out.id name,
        WsEffect.shown out.id name,
        WsEffect.updateRenderData out.id,
        WsEffect.treeChanged])

/-! ## Theorems -/

/-- From a state whose `requested` flag is already set, every valid
`request_mode(m)` answers with `mode(m)`. -/
lemma runRequestModes_requested (ms : List Nat) (h : ∀ x ∈ ms, x ≤ DECO_SERVER) :
    runRequestModes { requested := true } ms = ms.map (fun x => [x]) := by
  induction ms with
  | nil => rfl
  | cons m ms ih =>
    have hm : ¬ DECO_SERVER < m := not_lt.mpr (h m (List.mem_cons_self m ms))
    simp only [runRequestModes, requestMode, if_neg hm, List.map_cons]
    exact congrArg _ (ih fun x hx => h x (List.mem_cons_of_mem m hx))

/-- C3: on an `org_kde_kwin_server_decoration` object, `request_mode(m)`
with `m > SERVER` fails with `InvalidMode` and sends no `mode` event;
otherwise the first `request_mode` on the object is answered with
`mode(SERVER)` regardless of the requested value, and every subsequent
`request_mode(m)` is answered with `mode(m)`. -/
theorem decoration_request_mode (st : DecorationState) (m : Nat) (ms : List Nat) :
    (DECO_SERVER < m → requestMode st m = (st, [], some (.invalidMode m))) ∧
    (m ≤ DECO_SERVER → st.requested = false →
      requestMode st m = ({ requested := true }, [DECO_SERVER], none)) ∧
    (m ≤ DECO_SERVER → st.requested = true →
      requestMode st m = ({ requested := true }, [m], none)) ∧
    ((∀ x ∈ ms, x ≤ DECO_SERVER) →
      runRequestModes DecorationState.new ms =
        match ms with
        | [] => []
        | _ :: tail => [DECO_SERVER] :: tail.map (fun x => [x])) := by
  refine ⟨fun h => ?_, fun h hr => ?_, fun h hr => ?_, fun h => ?_⟩
  · simp [requestMode, h]
  · simp [requestMode, not_lt.mpr h, hr]
  · simp [requestMode, not_lt.mpr h, hr]
  · match ms with
    | [] => rfl
    | m0 :: tail =>
      have hm0 : ¬ DECO_SERVER < m0 := not_lt.mpr (h m0 (List.mem_cons_self m0 tail))
      simp only [runRequestModes, requestMode, DecorationState.new, if_neg hm0]
      exact congrArg _ (runRequestModes_requested tail
        fun x hx => h x (List.mem_cons_of_mem m0 hx))

/-- Witness for C3 at concrete inputs: `request_mode(5)` on a fresh
object errors with `InvalidMode(5)` and sends nothing, and the run
`[1, 0, 2]` from a fresh object answers `SERVER`, then `0`, then `2`. -/
theorem decoration_request_mode_witness :
    requestMode DecorationState.new 5
        = (DecorationState.new, [], some (.invalidMode 5)) ∧
    runRequestModes DecorationState.new [1, 0, 2] = [[2], [0], [2]] := by
  refine ⟨(decoration_request_mode DecorationState.new 5 []).1 (by decide), ?_⟩
  have h := (decoration_request_mode DecorationState.new 0 [1, 0, 2]).2.2.2 (by decide)
  simpa using h

/-- C9: `send_feedback` without a render context fails with
`ClientError::InvalidMethod`; no feedback object is created and no
events are emitted (there is no success result at all). -/
theorem dmabuf_feedback_no_render_ctx :
    sendFeedback none = .error .invalidMethod := rfl

/-- C10: the connector event dispatch panics (an `unreachable!()`
branch) in the disconnected state exactly on events other than
`Removed` and `Connected(info)`, and in the connected state exactly on
events other than `Disconnected` and `ModeChanged(mode)`; under the
state-machine discipline (only permitted events are delivered) no
panic branch is ever taken. -/
theorem connector_dispatch_totality :
    (∀ e, connectorStep .disconnected e = .panic ↔
      e ≠ .removed ∧ ∀ info, e ≠ .connected info) ∧
    (∀ e, connectorStep .connected e = .panic ↔
      e ≠ .disconnected ∧ ∀ mode, e ≠ .modeChanged mode) ∧
    (∀ s e, permittedEvent s e = true → connectorStep s e ≠ .panic) := by
  refine ⟨fun e => ?_, fun e => ?_, fun s e h => ?_⟩
  · cases e <;> simp [connectorStep]
  · cases e <;> simp [connectorStep]
  · cases s <;> cases e <;> simp_all [connectorStep, permittedEvent]

/-- Witness for C10 at concrete inputs: `Removed` is permitted while
disconnected and does not panic, and `Disconnected` is not permitted
while disconnected and hits the unreachable branch. -/
theorem connector_dispatch_totality_witness :
    connectorStep .disconnected .removed ≠ .panic ∧
    connectorStep .disconnected .disconnected = .panic := by
  exact ⟨connector_dispatch_totality.2.2 .disconnected .removed (by decide),
    (connector_dispatch_totality.1 .disconnected).mpr (by simp)⟩

/-- C6: `show_workspace` for a name with no existing workspace while
the seat is on the dummy output refuses: the state (in particular the
workspaces map) is unchanged and the only observable action is the
warning. -/
theorem show_workspace_dummy_refuses (st : ShowState) (name : String)
    (h1 : st.workspaces.find? (fun w => w.name == name) = none)
    (h2 : st.seatOutput.isDummy = true) :
    showWorkspace st name = (st, [WsEffect.warnDummyOutput]) := by
  simp [showWorkspace, h1, h2]

/-- Witness for C6 at a concrete state: one workspace named a, seat on
the dummy output, showing the absent name b changes nothing and only
warns. -/
theorem show_workspace_dummy_refuses_witness :
    showWorkspace
        { workspaces := [{ name := "a", outputId := 1, lastActiveChild := 3, visible := true }],
          seatOutput := { id := 0, isDummy := true } } "b"
      = ({ workspaces := [{ name := "a", outputId := 1, lastActiveChild := 3, visible := true }],
           seatOutput := { id := 0, isDummy := true } }, [WsEffect.warnDummyOutput]) :=
  show_workspace_dummy_refuses _ _ (by decide) (by decide)

/-- C4: mapping two nodes tiled onto a fresh workspace (no root
container, no last tiled keyboard toplevel): the first call creates a
Horizontal container holding only the first node as the workspace's
root; the second call appends to that container, leaving the children
list of length 2 in map order. -/
theorem map_tiled_fresh_workspace (s : SeatW) (ro : List OutputW) (d : OutputW)
    (ws : Workspace) (n1 n2 : Nat)
    (hlt : s.lastTiled = none) (hws : s.output.workspace = some ws)
    (hc : ws.container = none) :
    mapTiled { lastSeat := some s, rootOutputs := ro, dummyOutput := d } n1
      = .placed { container := some { split := .horizontal, children := [n1] } } ∧
    mapTiled
        { lastSeat := some { s with output :=
            { workspace := some { container := some { split := .horizontal, children := [n1] } } } },
          rootOutputs := ro, dummyOutput := d } n2
      = .placed { container := some { split := .horizontal, children := [n1, n2] } } := by
  constructor
  · simp [mapTiled, hlt, selectOutput, placeTiled, OutputW.ensureWorkspace, hws, hc,
      Container.new]
  · simp [mapTiled, hlt, selectOutput, placeTiled, OutputW.ensureWorkspace,
      Container.appendChild]

/-- Witness for C4 at a concrete input: a seat with no last tiled
toplevel on an output with a fresh workspace; mapping nodes 10 then 11
yields a Horizontal container with children in map order. -/
theorem map_tiled_fresh_workspace_witness :
    mapTiled
        { lastSeat := some { lastTiled := none, output := { workspace := some { container := none } } },
          rootOutputs := [], dummyOutput := { workspace := none } } 10
      = .placed { container := some { split := .horizontal, children := [10] } } ∧
    mapTiled
        { lastSeat := some { lastTiled := none, output :=
            { workspace := some { container := some { split := .horizontal, children := [10] } } } },
          rootOutputs := [], dummyOutput := { workspace := none } } 11
      = .placed { container := some { split := .horizontal, children := [10, 11] } } :=
  map_tiled_fresh_workspace
    { lastTiled := none, output := { workspace := some { container := none } } }
    [] { workspace := none } { container := none } 10 11 rfl rfl rfl

/-- The behaviour the spec claims for `show_workspace` on an existing
workspace: after the call the workspace lives on (has been migrated
to) the seat's output, and its last-active child is focused in
`Direction::Unspecified`. -/
def showWorkspaceMigratesClaim (st : ShowState) (name : String) : Prop :=
  ∀ ws, st.workspaces.find? (fun w => w.name == name) = some ws →
    (∀ w ∈ (showWorkspace st name).1.workspaces, w.name = name →
      w.outputId = st.seatOutput.id) ∧
    WsEffect.focusChild ws.lastActiveChild .unspecified ∈ (showWorkspace st name).2

/-- A state with the workspace web on output 1 while the seat is on
output 2. -/
def showSt0 : ShowState :=
  { workspaces := [{ name := "web", outputId := 1, lastActiveChild := 42, visible := false }],
    seatOutput := { id := 2, isDummy := false } }

/-- C5 counterexample: at `showSt0`, `show_workspace` leaves the
workspace web on output 1 instead of migrating it to the seat's
output 2, so the claimed behaviour fails. -/
theorem show_workspace_no_migration : ¬ showWorkspaceMigratesClaim showSt0 "web" := by
  intro h
  have h1 := (h { name := "web", outputId := 1, lastActiveChild := 42, visible := false }
    (by decide)).1
  have h2 := h1 { name := "web", outputId := 1, lastActiveChild := 42, visible := true }
    (by decide) rfl
  exact absurd h2 (by decide)

/-- `markShown` only flips a `visible` bit: the output associations
are unchanged. -/
lemma markShown_map_outputId (name : String) (l : List WorkspaceS) :
    (markShown name l).map (fun w => w.outputId) = l.map (fun w => w.outputId) := by
  induction l with
  | nil => rfl
  | cons w ws ih =>
    by_cases h : (w.name == name) = true
    · simp [markShown, h]
    · simp [markShown, h, ih]

/-- `markShown` only flips a `visible` bit: the names are unchanged. -/
lemma markShown_map_name (name : String) (l : List WorkspaceS) :
    (markShown name l).map (fun w => w.name) = l.map (fun w => w.name) := by
  induction l with
  | nil => rfl
  | cons w ws ih =>
    by_cases h : (w.name == name) = true
    · simp [markShown, h]
    · simp [markShown, h, ih]

/-- C5 amended: `show_workspace` on an existing workspace shows it on
its *own* output (`ws.output.get()`; the seat's output is not
consulted and no workspace changes its output association) and focuses
its last-active child in `Direction::Unspecified`; render data and
`tree_changed` are raised only when the workspace was not already the
shown one. -/
theorem show_workspace_existing (st : ShowState) (name : String) (ws : WorkspaceS)
    (h : st.workspaces.find? (fun w => w.name == name) = some ws) :
    (showWorkspace st name).1.workspaces.map (fun w => w.outputId)
        = st.workspaces.map (fun w => w.outputId) ∧
    (showWorkspace st name).1.workspaces.map (fun w => w.name)
        = st.workspaces.map (fun w => w.name) ∧
    (showWorkspace st name).2
      = [WsEffect.shown ws.outputId name,
         WsEffect.focusChild ws.lastActiveChild .unspecified]
        ++ (if ws.visible then []
            else [WsEffect.updateRenderData ws.outputId, WsEffect.treeChanged]) := by
  cases hv : ws.visible <;>
    simp [showWorkspace, h, hv, markShown_map_outputId, markShown_map_name]

/-- Witness for the amended C5 at `showSt0`: the workspace stays on
output 1, the child 42 is focused with `Unspecified`, and (having not
been visible) render data and `tree_changed` follow. -/
theorem show_workspace_existing_witness :
    (showWorkspace showSt0 "web").1.workspaces.map (fun w => w.outputId) = [1] ∧
    (showWorkspace showSt0 "web").2
      = [WsEffect.shown 1 "web",
         WsEffect.focusChild 42 .unspecified,
         WsEffect.updateRenderData 1, WsEffect.treeChanged] := by
  have h := show_workspace_existing showSt0 "web"
    { name := "web", outputId := 1, lastActiveChild := 42, visible := false } (by decide)
  exact ⟨h.1, by simpa using h.2.2⟩

/-- The behaviour the spec claims for the new output's position: the
maximum of the existing outputs' right edges and 0, hence never
negative. -/
def connectedX1Claim (existing : List OutputGlobalPos) : Prop :=
  handleConnectedX1 existing = specConnectedX1 existing ∧
  0 ≤ handleConnectedX1 existing

/-- C8 counterexample: with one existing output whose right edge is
negative, the code places the new output at that negative edge, not at
0 as `max(existing x2, 0)` would demand. -/
theorem connected_x1_claim_false :
    ¬ connectedX1Claim [{ x1 := -10, x2 := -5 }] := by
  unfold connectedX1Claim
  decide

lemma foldl_optmax_some (xs : List Int) (m : Int) :
    xs.foldl (fun acc x =>
        match acc with
        | none => some x
        | some a => some (max a x)) (some m)
      = some (xs.foldl max m) := by
  induction xs generalizing m with
  | nil => rfl
  | cons x xs ih => simp [List.foldl, ih]

lemma iterMaxD0_cons (x : Int) (xs : List Int) :
    iterMaxD0 (x :: xs) = xs.foldl max x := by
  simp [iterMaxD0, foldl_optmax_some]

lemma foldl_max_mono {a b : Int} (h : a ≤ b) (xs : List Int) :
    xs.foldl max a ≤ xs.foldl max b := by
  induction xs generalizing a b with
  | nil => simpa
  | cons x xs ih => exact ih (max_le_max h le_rfl)

lemma le_foldl_max (a : Int) (xs : List Int) : a ≤ xs.foldl max a := by
  induction xs generalizing a with
  | nil => simp
  | cons x xs ih => exact le_trans (le_max_left a x) (ih _)

lemma mem_le_foldl_max {y : Int} {xs : List Int} (h : y ∈ xs) (a : Int) :
    y ≤ xs.foldl max a := by
  induction xs generalizing a with
  | nil => cases h
  | cons x xs ih =>
    rcases List.mem_cons.mp h with rfl | h2
    · exact le_trans (le_max_right a y) (le_foldl_max _ _)
    · exact ih h2 _

lemma foldl_max_eq_or_mem (a : Int) (xs : List Int) :
    xs.foldl max a = a ∨ xs.foldl max a ∈ xs := by
  induction xs generalizing a with
  | nil => exact Or.inl rfl
  | cons x xs ih =>
    rw [List.foldl_cons]
    rcases ih (max a x) with h | h
    · rw [h]
      rcases max_choice a x with h2 | h2
      · exact Or.inl h2
      · exact Or.inr (by rw [h2]; exact List.mem_cons_self x xs)
    · exact Or.inr (List.mem_cons_of_mem x h)

/-- The characterization of `.max().unwrap_or(0)`: 0 on the empty
list, the maximum element otherwise, and equal to the 0-seeded foldl
max exactly on lists of nonnegative elements. -/
lemma iterMaxD0_spec (xs : List Int) :
    (xs = [] → iterMaxD0 xs = 0) ∧
    (∀ y ∈ xs, y ≤ iterMaxD0 xs) ∧
    (xs ≠ [] → iterMaxD0 xs ∈ xs) ∧
    ((∀ y ∈ xs, 0 ≤ y) → iterMaxD0 xs = xs.foldl max 0) := by
  refine ⟨fun h => by simp [h, iterMaxD0], ?_, ?_, ?_⟩
  · intro y hy
    cases xs with
    | nil => cases hy
    | cons x xs =>
      rw [iterMaxD0_cons]
      rcases List.mem_cons.mp hy with rfl | h2
      · exact le_foldl_max _ _
      · exact mem_le_foldl_max h2 _
  · intro h
    cases xs with
    | nil => exact absurd rfl h
    | cons x xs =>
      rw [iterMaxD0_cons]
      rcases foldl_max_eq_or_mem x xs with h2 | h2
      · rw [h2]; exact List.mem_cons_self x xs
      · exact List.mem_cons_of_mem x h2
  · intro h
    cases xs with
    | nil => rfl
    | cons x xs =>
      rw [iterMaxD0_cons, List.foldl_cons,
        max_eq_right (h x (List.mem_cons_self x xs))]

/-- C8 amended: the new `wl_output` global's x1 is
`.max().unwrap_or(0)` of the existing outputs' right edges: 0 when
there are none, the exact maximum (attained by one of them, with no
clamping to 0, hence possibly negative) otherwise; it agrees with the
spec's `max(existing x2, 0)` whenever every existing right edge is
nonnegative. -/
theorem connected_output_position (existing : List OutputGlobalPos) :
    (existing = [] → handleConnectedX1 existing = 0) ∧
    (∀ o ∈ existing, o.x2 ≤ handleConnectedX1 existing) ∧
    (existing ≠ [] → ∃ o ∈ existing, handleConnectedX1 existing = o.x2) ∧
    ((∀ o ∈ existing, 0 ≤ o.x2) →
      handleConnectedX1 existing = specConnectedX1 existing ∧
      0 ≤ handleConnectedX1 existing) := by
  have hs := iterMaxD0_spec (existing.map (fun o => o.x2))
  refine ⟨fun h => ?_, fun o ho => ?_, fun h => ?_, fun h => ?_⟩
  · simp [h, handleConnectedX1, iterMaxD0]
  · exact hs.2.1 o.x2 (List.mem_map_of_mem _ ho)
  · have hne : existing.map (fun o => o.x2) ≠ [] := by
      simpa using h
    rcases List.mem_map.mp (hs.2.2.1 hne) with ⟨o, ho, hx⟩
    exact ⟨o, ho, hx.symm⟩
  · have hnn : ∀ y ∈ existing.map (fun o => o.x2), 0 ≤ y := by
      intro y hy
      rcases List.mem_map.mp hy with ⟨o, ho, rfl⟩
      exact h o ho
    refine ⟨hs.2.2.2 hnn, ?_⟩
    cases existing with
    | nil => simp [handleConnectedX1, iterMaxD0]
    | cons o os =>
      exact le_trans (h o (List.mem_cons_self o os))
        (hs.2.1 o.x2 (List.mem_map_of_mem _ (List.mem_cons_self o os)))

/-- Witness for the amended C8 at concrete inputs: two outputs with
right edges 5 and 9 put the next output at 9, matching the spec's
clamped maximum for nonnegative edges. -/
theorem connected_output_position_witness :
    handleConnectedX1 [{ x1 := 0, x2 := 5 }, { x1 := 5, x2 := 9 }]
        = specConnectedX1 [{ x1 := 0, x2 := 5 }, { x1 := 5, x2 := 9 }] ∧
    0 ≤ handleConnectedX1 [{ x1 := 0, x2 := 5 }, { x1 := 5, x2 := 9 }] :=
  (connected_output_position [{ x1 := 0, x2 := 5 }, { x1 := 5, x2 := 9 }]).2.2.2
    (by decide)

/-- A skipped modifier contributes no row. -/
lemma rowsOfFormat_cons_skip (ext : Bool) (drm : Nat) (m : ModifierEntry)
    (mods : List ModifierEntry) (hm : (m.externalOnly && !ext) = true) :
    rowsOfFormat ext drm (m :: mods) = rowsOfFormat ext drm mods := by
  cases h1 : m.externalOnly <;> cases h2 : ext <;> simp_all [rowsOfFormat]

/-- A kept modifier contributes its row in front. -/
lemma rowsOfFormat_cons_keep (ext : Bool) (drm : Nat) (m : ModifierEntry)
    (mods : List ModifierEntry) (hm : ¬ (m.externalOnly && !ext) = true) :
    rowsOfFormat ext drm (m :: mods) = (drm, m.modifier) :: rowsOfFormat ext drm mods := by
  cases h1 : m.externalOnly <;> cases h2 : ext <;> simp_all [rowsOfFormat]

/-- A skipped format contributes no rows. -/
lemma tableRows_cons_skip (ext : Bool) (f : FormatEntry) (fs : List FormatEntry)
    (hf : (f.implicitExternalOnly && !ext) = true) :
    tableRows ext (f :: fs) = tableRows ext fs := by
  cases h1 : f.implicitExternalOnly <;> cases h2 : ext <;> simp_all [tableRows]

/-- A kept format contributes its modifier rows in front. -/
lemma tableRows_cons_keep (ext : Bool) (f : FormatEntry) (fs : List FormatEntry)
    (hf : ¬ (f.implicitExternalOnly && !ext) = true) :
    tableRows ext (f :: fs) = rowsOfFormat ext f.drm f.modifiers ++ tableRows ext fs := by
  cases h1 : f.implicitExternalOnly <;> cases h2 : ext <;> simp_all [tableRows]

/-- Unfolding the inner modifier loop of `send_feedback`: it appends
the rows kept by `rowsOfFormat` and advances the u16 row counter by
their number. -/
lemma rowStep_foldl (ext : Bool) (drm : Nat) (mods : List ModifierEntry)
    (b : List Nat) (s : Nat) (hs : s < 65536) :
    mods.foldl (feedbackRowStep ext drm) (b, s)
      = (b ++ (rowsOfFormat ext drm mods).flatMap (fun p => rowBytes p.1 p.2),
         (s + (rowsOfFormat ext drm mods).length) % 65536) := by
  induction mods generalizing b s with
  | nil => simp [rowsOfFormat, Nat.mod_eq_of_lt hs]
  | cons m mods ih =>
    rw [List.foldl_cons]
    by_cases hm : (m.externalOnly && !ext) = true
    · rw [show feedbackRowStep ext drm (b, s) m = (b, s) from by
        simp [feedbackRowStep, hm]]
      rw [ih b s hs, rowsOfFormat_cons_skip ext drm m mods hm]
    · rw [show feedbackRowStep ext drm (b, s) m
          = (b ++ rowBytes drm m.modifier, (s + 1) % 65536) from by
        simp [feedbackRowStep, hm]]
      rw [ih _ _ (Nat.mod_lt _ (by norm_num)), rowsOfFormat_cons_keep ext drm m mods hm]
      rw [Prod.mk.injEq]
      refine ⟨by simp [List.append_assoc], ?_⟩
      simp only [Nat.mod_add_mod, List.length_cons]
      omega

/-- Unfolding the outer format loop of `send_feedback`: it appends the
rows kept by `tableRows` and advances the u16 row counter by their
number. -/
lemma formatStep_foldl (ext : Bool) (formats : List FormatEntry)
    (b : List Nat) (s : Nat) (hs : s < 65536) :
    formats.foldl (feedbackFormatStep ext) (b, s)
      = (b ++ (tableRows ext formats).flatMap (fun p => rowBytes p.1 p.2),
         (s + (tableRows ext formats).length) % 65536) := by
  induction formats generalizing b s with
  | nil => simp [tableRows, Nat.mod_eq_of_lt hs]
  | cons f formats ih =>
    rw [List.foldl_cons]
    by_cases hf : (f.implicitExternalOnly && !ext) = true
    · rw [show feedbackFormatStep ext (b, s) f = (b, s) from by
        simp [feedbackFormatStep, hf]]
      rw [ih b s hs, tableRows_cons_skip ext f formats hf]
    · rw [show feedbackFormatStep ext (b, s) f
          = f.modifiers.foldl (feedbackRowStep ext f.drm) (b, s) from by
        simp [feedbackFormatStep, hf]]
      rw [rowStep_foldl ext f.drm f.modifiers b s hs]
      rw [ih _ _ (Nat.mod_lt _ (by norm_num)), tableRows_cons_keep ext f formats hf]
      rw [Prod.mk.injEq]
      refine ⟨by simp [List.flatMap_append, List.append_assoc], ?_⟩
      simp only [Nat.mod_add_mod, List.length_append]
      omega

/-- The loop of `send_feedback` produces exactly the bytes of the kept
rows and counts them modulo 2 ^ 16. -/
lemma feedbackLoop_spec (ext : Bool) (formats : List FormatEntry) :
    feedbackLoop ext formats
      = ((tableRows ext formats).flatMap (fun p => rowBytes p.1 p.2),
         (tableRows ext formats).length % 65536) := by
  have h := formatStep_foldl ext formats [] 0 (by norm_num)
  simpa [feedbackLoop] using h

/-- The spec-side skip condition coincides with the code's two-level
skip for a single format. -/
lemma inner_rows_eq (ext : Bool) (f : FormatEntry) :
    (f.modifiers.filterMap fun m =>
      if (f.implicitExternalOnly || m.externalOnly) && !ext then none
      else some (f.drm, m.modifier))
    = (if f.implicitExternalOnly && !ext then []
       else rowsOfFormat ext f.drm f.modifiers) := by
  by_cases hf : (f.implicitExternalOnly && !ext) = true
  · rw [if_pos hf]
    rcases Bool.and_eq_true_iff.mp hf with ⟨h1, h2⟩
    simp [h1, h2]
  · rw [if_neg hf]
    unfold rowsOfFormat
    congr 1
    funext m
    cases h1 : f.implicitExternalOnly <;> cases h2 : ext <;> simp_all

/-- The spec-side row list equals the code-side row list. -/
lemma advertisedRows_eq (ctx : RenderCtx) :
    advertisedRows ctx = tableRows ctx.supportsExternalTexture ctx.formats := by
  unfold advertisedRows tableRows
  induction ctx.formats with
  | nil => rfl
  | cons f fs ih =>
    rw [List.flatMap_cons, List.flatMap_cons, ih, inner_rows_eq]

/-- One format-table row is 16 bytes. -/
lemma rowBytes_length (fmt modifier : Nat) : (rowBytes fmt modifier).length = 16 := by
  simp [rowBytes, u32le, u64le]

/-- The table is 16 bytes per row. -/
lemma rows_bytes_length (rows : List (Nat × Nat)) :
    (rows.flatMap fun p => rowBytes p.1 p.2).length = 16 * rows.length := by
  induction rows with
  | nil => rfl
  | cons p ps ih =>
    simp [List.flatMap_cons, rowBytes_length, ih, Nat.mul_succ]
    omega

/-- C1: a successful feedback request with a render context emits on
the feedback object exactly, in order: main_device, format_table of
size 16 * N, tranche_target_device, tranche_formats with indices
0..N, tranche_flags 0, tranche_done, done, where N is the number of
rows written (bounded by the u16 row counter). -/
theorem dmabuf_feedback_events (ctx : RenderCtx)
    (h : (advertisedRows ctx).length < 65536) :
    ∃ r, sendFeedback (some ctx) = .ok r ∧
      r.events
        = [.mainDevice ctx.dev,
           .formatTable (16 * (advertisedRows ctx).length),
           .trancheTargetDevice ctx.dev,
           .trancheFormats (List.range (advertisedRows ctx).length),
           .trancheFlags 0,
           .trancheDone,
           .done] := by
  refine ⟨_, rfl, ?_⟩
  simp only [sendFeedback, feedbackLoop_spec, ← advertisedRows_eq,
    Nat.mod_eq_of_lt h]
  simp [Nat.mul_comm]

/-- C2: the feedback table of `send_feedback` lives in a memfd created
with CLOEXEC | ALLOW_SEALING and sealed with exactly GROW, SHRINK and
WRITE; its bytes are one 16-byte little-endian row (u32 format, 4
bytes padding, u64 modifier) per advertised pair, skipping pairs whose
external-only flag is set when the renderer lacks external textures;
and the size announced in format_table is 16 times the number of rows
written (bounded by the u16 row counter). -/
theorem dmabuf_feedback_table (ctx : RenderCtx)
    (h : (advertisedRows ctx).length < 65536) :
    ∃ r, sendFeedback (some ctx) = .ok r ∧
      r.memfdFlags = (MFD_CLOEXEC ||| MFD_ALLOW_SEALING) ∧
      r.sealsAdded = (F_SEAL_GROW ||| F_SEAL_SHRINK ||| F_SEAL_WRITE) ∧
      r.bytes = (advertisedRows ctx).flatMap (fun p => rowBytes p.1 p.2) ∧
      r.bytes.length = 16 * (advertisedRows ctx).length ∧
      FeedbackEvent.formatTable (16 * (advertisedRows ctx).length) ∈ r.events := by
  refine ⟨_, rfl, rfl, rfl, ?_, ?_, ?_⟩ <;>
    simp only [sendFeedback, feedbackLoop_spec, ← advertisedRows_eq,
      Nat.mod_eq_of_lt h]
  · exact rows_bytes_length _
  · simp [Nat.mul_comm]

/-- A small render context without external-texture support: one
format with one plain and one external-only modifier, and one
implicitly-external-only format that must be skipped entirely. -/
def ctxW : RenderCtx :=
  { dev := 3, supportsExternalTexture := false,
    formats :=
      [{ drm := 7, implicitExternalOnly := false,
         modifiers := [{ modifier := 5, externalOnly := false },
                       { modifier := 9, externalOnly := true }] },
       { drm := 8, implicitExternalOnly := true,
         modifiers := [{ modifier := 0, externalOnly := false }] }] }

/-- Witness for C1 at `ctxW`: exactly one row survives the skips, so
the event list is the seven expected events with N = 1. -/
theorem dmabuf_feedback_events_witness :
    ∃ r, sendFeedback (some ctxW) = .ok r ∧
      r.events
        = [.mainDevice 3, .formatTable 16, .trancheTargetDevice 3,
           .trancheFormats [0], .trancheFlags 0, .trancheDone, .done] := by
  have h := dmabuf_feedback_events ctxW (by decide)
  rw [show (advertisedRows ctxW).length = 1 from rfl] at h
  simpa [List.range_succ] using h

/-- Witness for C2 at `ctxW`: flags 3 (CLOEXEC | ALLOW_SEALING),
seals 14 (GROW | SHRINK | WRITE), and the single surviving row (7, 5)
written as 16 little-endian bytes. -/
theorem dmabuf_feedback_table_witness :
    ∃ r, sendFeedback (some ctxW) = .ok r ∧
      r.memfdFlags = 3 ∧
      r.sealsAdded = 14 ∧
      r.bytes = [7, 0, 0, 0, 0, 0, 0, 0, 5, 0, 0, 0, 0, 0, 0, 0] ∧
      r.bytes.length = 16 ∧
      FeedbackEvent.formatTable 16 ∈ r.events := by
  have h := dmabuf_feedback_table ctxW (by decide)
  obtain ⟨r, hr, h1, h2, h3, h4, h5⟩ := h
  exact ⟨r, hr, by simpa using h1, by simpa using h2, by simpa using h3,
    by simpa using h4, by simpa using h5⟩

/-- A render context with one fully supported format and modifier. -/
def ctx0 : RenderCtx :=
  { dev := 1, supportsExternalTexture := true,
    formats := [{ drm := 7, implicitExternalOnly := false,
                  modifiers := [{ modifier := 5, externalOnly := false }] }] }

/-- C7 counterexample: binding at version 2 with a supported format
and modifier sends only the format event and no modifier event, so
the claim that versions 1-3 advertise modifiers fails at version 2. -/
theorem dmabuf_bind_claim_false : ¬ bindClaimV1toV3 2 ctx0 := by
  unfold bindClaimV1toV3
  decide

/-- C7 amended: for a bind with a render context present, version >= 4
advertises nothing; versions 1-3 send a format event for every
supported format; modifier events for the supported modifiers are sent
only from version MODIFIERS_SINCE_VERSION = 3 on, and no modifier
event at all is sent at versions 1-2. -/
theorem dmabuf_bind_events (v : Nat) (ctx : RenderCtx) :
    (FEEDBACK_SINCE_VERSION ≤ v → bindEvents v (some ctx) = []) ∧
    (v < FEEDBACK_SINCE_VERSION →
      ∀ f ∈ ctx.formats,
        (f.implicitExternalOnly && !ctx.supportsExternalTexture) = false →
          BindEvent.format f.drm ∈ bindEvents v (some ctx)) ∧
    (MODIFIERS_SINCE_VERSION ≤ v → v < FEEDBACK_SINCE_VERSION →
      ∀ f ∈ ctx.formats,
        (f.implicitExternalOnly && !ctx.supportsExternalTexture) = false →
          ∀ m ∈ f.modifiers,
            (m.externalOnly && !ctx.supportsExternalTexture) = false →
              BindEvent.modifier f.drm (m.modifier / 4294967296) (m.modifier % 4294967296)
                ∈ bindEvents v (some ctx)) ∧
    (v < MODIFIERS_SINCE_VERSION →
      ∀ fmt hi lo, BindEvent.modifier fmt hi lo ∉ bindEvents v (some ctx)) := by
  refine ⟨fun h4 => ?_, fun h4 f hf hskip => ?_, fun h3 h4 f hf hskip m hm hskipm => ?_,
    fun h3 fmt hi lo hmem => ?_⟩
  · simp [bindEvents, h4]
  · have hn4 : ¬ FEEDBACK_SINCE_VERSION ≤ v := not_le.mpr h4
    simp only [bindEvents, if_neg hn4, List.mem_flatMap]
    exact ⟨f, hf, by simp [hskip]⟩
  · have hn4 : ¬ FEEDBACK_SINCE_VERSION ≤ v := not_le.mpr h4
    simp only [bindEvents, if_neg hn4, List.mem_flatMap]
    refine ⟨f, hf, ?_⟩
    simp only [hskip, Bool.false_eq_true, not_false_iff, if_neg, if_pos h3]
    refine List.mem_cons_of_mem _ (List.mem_filterMap.mpr ⟨m, hm, ?_⟩)
    simp [hskipm]
  · have hn4 : ¬ FEEDBACK_SINCE_VERSION ≤ v := by
      unfold FEEDBACK_SINCE_VERSION
      unfold MODIFIERS_SINCE_VERSION at h3
      omega
    have hn3 : ¬ MODIFIERS_SINCE_VERSION ≤ v := not_le.mpr h3
    simp only [bindEvents, if_neg hn4, List.mem_flatMap] at hmem
    obtain ⟨f, hf, hin⟩ := hmem
    by_cases hs : (f.implicitExternalOnly && !ctx.supportsExternalTexture) = true
    · simp [hs] at hin
    · simp [hs, hn3] at hin

/-- Witness for the amended C7 at `ctx0`: nothing at version 4, the
format at version 2, the modifier at version 3, and no modifier event
at version 2. -/
theorem dmabuf_bind_events_witness :
    bindEvents 4 (some ctx0) = [] ∧
    BindEvent.format 7 ∈ bindEvents 2 (some ctx0) ∧
    BindEvent.modifier 7 0 5 ∈ bindEvents 3 (some ctx0) ∧
    BindEvent.modifier 7 0 5 ∉ bindEvents 2 (some ctx0) := by
  refine ⟨(dmabuf_bind_events 4 ctx0).1 (by decide),
    (dmabuf_bind_events 2 ctx0).2.1 (by decide)
      { drm := 7, implicitExternalOnly := false,
        modifiers := [{ modifier := 5, externalOnly := false }] }
      (by decide) (by decide),
    ?_,
    (dmabuf_bind_events 2 ctx0).2.2.2 (by decide) 7 0 5⟩
  have h := (dmabuf_bind_events 3 ctx0).2.2.1 (by decide) (by decide)
    { drm := 7, implicitExternalOnly := false,
      modifiers := [{ modifier := 5, externalOnly := false }] }
    (by decide) (by decide)
    { modifier := 5, externalOnly := false } (by decide) (by decide)
  simpa using h

end Jay
